import Mathlib

/-!
# URL shortener: the `shorten` and `redirect` Lambda handlers

A shallow embedding of `src/lambdas/shorten/main.go` and
`src/lambdas/redirect/main.go`, and the properties of the two handlers over a
DynamoDB table modelled as a map from `Id` to the remaining attributes.

The AWS SDK, `encoding/json` and `gofrs/uuid` are libraries outside the
repository.  Their outcomes that the handlers branch on (an `error` or a value)
are inputs of the embedding, collected in `Env`; the three DynamoDB calls act on
an explicit `Table`.
-/

namespace UrlShortener

/-! ## Go values -/

/-- A Go `error`, identified with its message. `none : Option GoError` is `nil`. -/
abbrev GoError := String

/-- Go `int` arithmetic on the 64-bit Lambda targets: a result is reduced to
the two's complement range `[-2^63, 2^63)`. -/
def wrapInt (n : Int) : Int := (n + 2 ^ 63) % 2 ^ 64 - 2 ^ 63

/-- Whether a number is representable as a Go `int` (64 bits). -/
def fitsInt (n : Int) : Bool := decide (-(2 ^ 63) ≤ n) && decide (n < 2 ^ 63)

/-- The Go slice expression `s[lo:hi]` on a string. `none` is the run-time
panic for indices out of range. (Go counts bytes; the only string sliced here
is ASCII, where bytes and characters coincide.) -/
def sliceString (s : String) (lo hi : Nat) : Option String :=
  if lo ≤ hi ∧ hi ≤ s.length then some (String.mk ((s.data.drop lo).take (hi - lo))) else none

/-! ## UUIDs (`github.com/gofrs/uuid`) -/

/-- A UUID is `[16]byte`: 128 bits. -/
abbrev UUID := Fin 16 → Fin 256

/-- The digit table of `encoding/hex`: `"0123456789abcdef"`. -/
def hextable : List Char :=
  ['0', '1', '2', '3', '4', '5', '6', '7', '8', '9', 'a', 'b', 'c', 'd', 'e', 'f']

/-- The function `hex.Encode`: each byte `v` yields `hextable[v>>4]` then `hextable[v&0x0f]`. -/
def hexEncode : List (Fin 256) → List Char
  | [] => []
  | v :: rest =>
    hextable.getD (v.val / 16) '0' :: hextable.getD (v.val % 16) '0' :: hexEncode rest

/-- Modelled from the spec: `UUID.String()` of `gofrs/uuid` is not under `src/`.
The spec calls it the canonical string form of a 128-bit value; this is the
RFC 4122 rendering `xxxxxxxx-xxxx-xxxx-xxxx-xxxxxxxxxxxx`, the hex encoding of
bytes 0-3, 4-5, 6-7, 8-9 and 10-15 separated by hyphens. -/
def uuidString (u : UUID) : String :=
  String.mk (hexEncode [u 0, u 1, u 2, u 3] ++ '-' :: hexEncode [u 4, u 5] ++ '-' ::
    hexEncode [u 6, u 7] ++ '-' :: hexEncode [u 8, u 9] ++ '-' ::
    hexEncode [u 10, u 11, u 12, u 13, u 14, u 15])

/-- The first 20 bits of a UUID, as a number below `2^20`. -/
def first20Bits (u : UUID) : Nat :=
  (u 0).val * 4096 + (u 1).val * 16 + (u 2).val / 16

/-- Five lowercase hexadecimal digits of a 20-bit number, most significant first. -/
def hex5 (n : Nat) : String :=
  String.mk [hextable.getD (n / 65536 % 16) '0', hextable.getD (n / 4096 % 16) '0',
    hextable.getD (n / 256 % 16) '0', hextable.getD (n / 16 % 16) '0',
    hextable.getD (n % 16) '0']

/-! ## Requests, responses, items -/

/-- The constants of `shorten/main.go`. -/
def BaseURL : String := "https://mkleyn.org"

/-- The struct `Request`: the `url` field of the JSON body. -/
structure Request where
  URL : String
deriving DecidableEq

/-- The struct `Item` of both lambdas (attributes `Id`, `LongUrl`, `HitCount`). -/
structure Item where
  ID : String
  LongURL : String
  HitCount : Int
deriving DecidableEq

/-- The fields of `events.APIGatewayProxyRequest` the handlers read. -/
structure APIGatewayProxyRequest where
  Body : String
  PathParameters : List (String × String)
deriving DecidableEq

/-- The fields of `events.APIGatewayProxyResponse` the handlers set; unset
fields are the zero values `[]` and `""`. -/
structure APIGatewayProxyResponse where
  StatusCode : Int
  Headers : List (String × String)
  Body : String
deriving DecidableEq

/-! ## The DynamoDB table -/

/-- The attributes stored under an `Id`: `LongUrl` (a missing or NULL
attribute reads back as the empty string) and the number `HitCount`, which
DynamoDB does not bound to 64 bits. -/
structure Record where
  LongUrl : String
  HitCount : Int
deriving DecidableEq

/-- The table `UrlShortenerTable`: at most one record per `Id`. -/
abbrev Table := String → Option Record

/-- The table with the record under `id` set to `r`. -/
def Table.set (t : Table) (id : String) (r : Record) : Table :=
  fun k => if k = id then some r else t k

/-- The empty table. -/
def Table.empty : Table := fun _ => none

/-- A DynamoDB call issued by a handler, with the arguments that matter. -/
inductive StoreCall
  | GetItem (key : String)
  | PutItem (item : Item)
  | UpdateItem (key : String) (hitCount : Int)
deriving DecidableEq

/-- What the libraries hand back to a handler during one invocation: the result of
`json.Unmarshal` on a body, of `session.NewSession`, of `uuid.NewV4`, and
whether each DynamoDB call reports an error. -/
structure Env where
  jsonUnmarshal : String → Except GoError Request
  newSession : Option GoError
  newV4 : Except GoError UUID
  getItemErr : Option GoError
  putItemErr : Option GoError
  updateItemErr : Option GoError

/-- The call `svc.GetItem` with key `Id = key`: the stored attributes, or nothing
(`len(resp.Item) == 0`) when no item has that key. -/
def GetItem (env : Env) (t : Table) (key : String) : Except GoError (Option Record) :=
  match env.getItemErr with
  | some e => .error e
  | none => .ok (t key)

/-- The call `svc.PutItem` as the shortener issues it, with `Item` and `TableName`
only and no `ConditionExpression`: DynamoDB creates the item or replaces the
item that has the same key. A call that reports an error writes nothing. -/
def PutItem (env : Env) (t : Table) (item : Item) : Except GoError Table :=
  match env.putItemErr with
  | some e => .error e
  | none => .ok (t.set item.ID ⟨item.LongURL, item.HitCount⟩)

/-- The call `svc.UpdateItem` with `UpdateExpression` `SET HitCount = :hitCount`:
the attribute is overwritten with the value the client sent, other attributes
are kept, and an item is created when the key has none. -/
def UpdateItem (env : Env) (t : Table) (key : String) (hitCount : Int) : Except GoError Table :=
  match env.updateItemErr with
  | some e => .error e
  | none =>
    match t key with
    | some r => .ok (t.set key ⟨r.LongUrl, hitCount⟩)
    | none => .ok (t.set key ⟨"", hitCount⟩)

/-- The function `dynamodbattribute.UnmarshalMap` into an `Item`: the number
`HitCount` must fit the Go `int` field, else an error is returned. -/
def UnmarshalMap (key : String) (r : Record) : Except GoError Item :=
  if fitsInt r.HitCount then .ok ⟨key, r.LongUrl, r.HitCount⟩
  else .error "UnmarshalTypeError: number overflow"

/-- What one handler invocation produced: its two return values, the table it
leaves, and the DynamoDB calls it issued in order. -/
structure Outcome where
  response : APIGatewayProxyResponse
  err : Option GoError
  table : Table
  calls : List StoreCall

/-- The outcome with earlier calls put in front of its own. -/
def Outcome.after (pre : List StoreCall) (o : Outcome) : Outcome :=
  { o with calls := pre ++ o.calls }

/-! ## `shorten/main.go` -/

namespace Shorten

/-- Lines 43-87 of `handleRequest` either return or hand on to the write. -/
inductive Prepared
  | returned (out : Outcome)
  | ready (shortURLId : String) (requestBody : Request)

/-- Lines 43-87 of `handleRequest`: decode the body, open the session, draw a
UUID, cut the identifier, and look it up. `none` is the panic of the slice. -/
def prepare (env : Env) (t : Table) (request : APIGatewayProxyRequest) : Option Prepared :=
  match env.jsonUnmarshal request.Body with
  | .error e => some (.returned ⟨⟨500, [], "Error during unmarshalling"⟩, some e, t, []⟩)
  | .ok requestBody =>
    match env.newSession with
    | some e =>
      some (.returned ⟨⟨500, [], "Error during AWS client instantiation"⟩, some e, t, []⟩)
    | none =>
      match env.newV4 with
      | .error e =>
        some (.returned
          ⟨⟨500, [], "Failed to generate UUID for new short URL"⟩, some e, t, []⟩)
      | .ok uuid =>
        match sliceString (uuidString uuid) 0 5 with
        | none => none
        | some shortURLId =>
          match GetItem env t shortURLId with
          | .error e =>
            some (.returned
              ⟨⟨500, [], "An error was encountered reading from DynamoDB."⟩, some e, t,
                [.GetItem shortURLId]⟩)
          | .ok resp =>
            if resp.isSome then
              some (.returned
                ⟨⟨500, [], "The generated short url id already exists in DynamoDB--please try creating a shortened url again."⟩,
                  none, t, [.GetItem shortURLId]⟩)
            else some (.ready shortURLId requestBody)

/-- Lines 89-110 of `handleRequest`: build the item, put it, answer with the
short URL. -/
def persist (env : Env) (t : Table) (shortURLId : String) (requestBody : Request) : Outcome :=
  let item : Item := { ID := shortURLId, LongURL := requestBody.URL, HitCount := 0 }
  match PutItem env t item with
  | .error e =>
    ⟨⟨500, [], "Failed to write item to DynamoDB table"⟩, some e, t, [.PutItem item]⟩
  | .ok t' =>
    let newURL := BaseURL ++ "/" ++ shortURLId
    ⟨⟨200, [], newURL⟩, none, t', [.PutItem item]⟩

/-- The handler of the shorten lambda on the table `t`. -/
def handleRequest (env : Env) (t : Table) (request : APIGatewayProxyRequest) : Option Outcome :=
  match prepare env t request with
  | none => none
  | some (.returned out) => some out
  | some (.ready shortURLId requestBody) =>
    some ((persist env t shortURLId requestBody).after [.GetItem shortURLId])

end Shorten

/-! ## `redirect/main.go` -/

namespace Redirect

/-- The function `updateHitCountAttribute`: increment the field of the item held
by the caller, then send `SET HitCount = :hitCount` with that value. Returns
the mutated item, the error, the table and the call issued. -/
def updateHitCountAttribute (env : Env) (t : Table) (item : Item) :
    Item × Option GoError × Table × List StoreCall :=
  let item' : Item := { item with HitCount := wrapInt (item.HitCount + 1) }
  match UpdateItem env t item'.ID item'.HitCount with
  | .error e => (item', some e, t, [.UpdateItem item'.ID item'.HitCount])
  | .ok t' => (item', none, t', [.UpdateItem item'.ID item'.HitCount])

/-- Lines 29-67 of `handleRequest`: read the path parameter, open the session,
get the item and decode it. Either the handler returns, or it holds the item. -/
def lookup (env : Env) (t : Table) (request : APIGatewayProxyRequest) : Outcome ⊕ Item :=
  let shortURLId := (request.PathParameters.lookup "id").getD ""
  match env.newSession with
  | some e => .inl ⟨⟨500, [], "Error during AWS client instantiation"⟩, some e, t, []⟩
  | none =>
    match GetItem env t shortURLId with
    | .error e =>
      .inl ⟨⟨500, [], "An error was encountered reading from DynamoDB."⟩, some e, t,
        [.GetItem shortURLId]⟩
    | .ok none =>
      .inl ⟨⟨404, [], "This short url does not correspond to a longer URL."⟩, none, t,
        [.GetItem shortURLId]⟩
    | .ok (some r) =>
      match UnmarshalMap shortURLId r with
      | .error e => .inl ⟨⟨500, [], ""⟩, some e, t, [.GetItem shortURLId]⟩
      | .ok item => .inr item

/-- Lines 69-81 of `handleRequest`: update the hit count, then redirect. -/
def respond (env : Env) (t : Table) (item : Item) : Outcome :=
  match updateHitCountAttribute env t item with
  | (_, some e, t', calls) => ⟨⟨500, [], ""⟩, some e, t', calls⟩
  | (item', none, t', calls) => ⟨⟨308, [("location", item'.LongURL)], ""⟩, none, t', calls⟩

/-- The handler of the redirect lambda on the table `t`. -/
def handleRequest (env : Env) (t : Table) (request : APIGatewayProxyRequest) : Outcome :=
  match lookup env t request with
  | .inl out => out
  | .inr item =>
    (respond env t item).after [.GetItem ((request.PathParameters.lookup "id").getD "")]

/-- Successive invocations of the handler, each on the table the previous one
left: the final table and the responses in order. -/
def successive (env : Env) (request : APIGatewayProxyRequest) :
    Nat → Table → Table × List APIGatewayProxyResponse
  | 0, t => (t, [])
  | k + 1, t =>
    let out := handleRequest env t request
    let rest := successive env request k out.table
    (rest.1, out.response :: rest.2)

end Redirect

/-! ## Concurrent redirect invocations

Invocations share nothing but the table. Each one touches the table twice:
once in `Redirect.lookup` (its `GetItem`) and once in `Redirect.respond` (its
`UpdateItem`); other invocations may run in between. -/

/-- Where one redirect invocation stands. -/
inductive Phase
  | start
  | holding (item : Item)
  | returned (response : APIGatewayProxyResponse)

/-- The progress of a phase: 0, 1 or 2 table steps done or skipped. -/
def Phase.rank : Phase → Nat
  | .start => 0
  | .holding _ => 1
  | .returned _ => 2

/-- The shared table and the phase of every invocation. -/
structure World where
  table : Table
  phase : Nat → Phase

/-- Every invocation about to start on table `t`. -/
def World.init (t : Table) : World := ⟨t, fun _ => .start⟩

/-- Invocation `k` runs up to and including its next table call. -/
def World.step (env : Env) (request : APIGatewayProxyRequest) (w : World) (k : Nat) : World :=
  match w.phase k with
  | .start =>
    match Redirect.lookup env w.table request with
    | .inl out => ⟨out.table, Function.update w.phase k (.returned out.response)⟩
    | .inr item => ⟨w.table, Function.update w.phase k (.holding item)⟩
  | .holding item =>
    let out := Redirect.respond env w.table item
    ⟨out.table, Function.update w.phase k (.returned out.response)⟩
  | .returned _ => w

/-- The world after the invocations took their steps in the order `sched`. -/
def World.run (env : Env) (request : APIGatewayProxyRequest) (w : World) (sched : List Nat) :
    World :=
  sched.foldl (World.step env request) w

/-- A schedule of `N` invocations in which each takes both of its steps. -/
def IsInterleaving (N : Nat) (sched : List Nat) : Prop :=
  (∀ k ∈ sched, k < N) ∧ ∀ k ∈ List.range N, sched.count k = 2

instance (N : Nat) (sched : List Nat) : Decidable (IsInterleaving N sched) := by
  unfold IsInterleaving; infer_instance

/-- The schedule without interleaving: invocation 0 runs to its end, then 1, and so on. -/
def seqSchedule : Nat → List Nat
  | 0 => []
  | n + 1 => seqSchedule n ++ [n, n]

/-- How many of the invocations `0 .. n-1` have returned. -/
def returnedCount (ph : Nat → Phase) : Nat → Nat
  | 0 => 0
  | n + 1 => returnedCount ph n + (if (ph n).rank = 2 then 1 else 0)

/-- The invariant of `N` concurrent redirects for the record under `i`, which
held the long URL `u` and the hit count `h` when they started: the stored
count and every count held by an invocation between its two steps lie between
`h` and `h` plus the number of invocations that returned, and the stored count
exceeds `h` once one has returned. -/
structure RedirectInv (N : Nat) (i u : String) (h : Int) (w : World) : Prop where
  stored : ∃ c, w.table i = some ⟨u, c⟩ ∧ h ≤ c ∧ c ≤ h + returnedCount w.phase N ∧
    (1 ≤ returnedCount w.phase N → h + 1 ≤ c)
  held : ∀ k item, w.phase k = .holding item →
    k < N ∧ item.ID = i ∧ h ≤ item.HitCount ∧ item.HitCount ≤ h + returnedCount w.phase N

/-! ## Sample values -/

/-- A UUID whose string form starts with `abcde`. -/
def sampleUUID : UUID :=
  fun k => if k = 0 then 0xab else if k = 1 then 0xcd else if k = 2 then 0xe7 else 9

/-- The result of `json.Unmarshal` into a `Request` on a few bodies: an object
with a `url`, an object with an empty `url`, an object without `url`, and
anything else taken as malformed. -/
def sampleUnmarshal (body : String) : Except GoError Request :=
  if body = "\x7b\"url\":\"https://example.com/page\"\x7d" then .ok ⟨"https://example.com/page"⟩
  else if body = "\x7b\"url\":\"https://example.org/other\"\x7d" then
    .ok ⟨"https://example.org/other"⟩
  else if body = "\x7b\"url\":\"\"\x7d" then .ok ⟨""⟩
  else if body = "\x7b\x7d" then .ok ⟨""⟩
  else .error "invalid character looking for beginning of value"

/-- An environment in which every library call succeeds and the UUID drawn is
`sampleUUID`. -/
def sampleEnv : Env :=
  { jsonUnmarshal := sampleUnmarshal, newSession := none, newV4 := .ok sampleUUID,
    getItemErr := none, putItemErr := none, updateItemErr := none }

/-- A table with the single record `abcde`. -/
def sampleTable (hitCount : Int) : Table :=
  Table.empty.set "abcde" ⟨"https://example.com/page", hitCount⟩

/-- A redirect request for `/abcde`. -/
def sampleRedirect : APIGatewayProxyRequest := ⟨"", [("id", "abcde")]⟩

/-! ## Lemmas on the model -/

@[simp]
theorem Table.set_same (t : Table) (id : String) (r : Record) : t.set id r id = some r := by
  simp [Table.set]

theorem Table.set_other (t : Table) (id j : String) (r : Record) (h : j ≠ id) :
    t.set id r j = t j := by
  simp [Table.set, h]

theorem hextable_getD_mem (n : Nat) (h : n < 16) : hextable.getD n '0' ∈ hextable := by
  interval_cases n <;> simp [hextable]

theorem hextable_lower_hex (c : Char) (h : c ∈ hextable) :
    ('0' ≤ c ∧ c ≤ '9') ∨ ('a' ≤ c ∧ c ≤ 'f') := by
  simp only [hextable, List.mem_cons, List.mem_singleton, List.not_mem_nil, or_false] at h
  rcases h with h | h | h | h | h | h | h | h | h | h | h | h | h | h | h | h <;>
    subst h <;> decide

theorem wrapInt_of_fits (n : Int) (hlo : -(2 ^ 63) ≤ n) (hhi : n < 2 ^ 63) : wrapInt n = n := by
  unfold wrapInt
  have h1 : (n + 2 ^ 63) % 2 ^ 64 = n + 2 ^ 63 := Int.emod_eq_of_lt (by omega) (by omega)
  omega

theorem fitsInt_iff (n : Int) : fitsInt n = true ↔ -(2 ^ 63) ≤ n ∧ n < 2 ^ 63 := by
  simp [fitsInt]

/-- The identifier cut from a UUID, in closed form. -/
theorem sliceString_uuidString (u : UUID) :
    sliceString (uuidString u) 0 5 =
      some (String.mk [hextable.getD ((u 0).val / 16) '0', hextable.getD ((u 0).val % 16) '0',
        hextable.getD ((u 1).val / 16) '0', hextable.getD ((u 1).val % 16) '0',
        hextable.getD ((u 2).val / 16) '0']) := by
  simp [sliceString, uuidString, hexEncode, String.length]

/-! ## The identifier -/

/-- C10: for every 128-bit UUID the canonical string form has 36 characters, so
the slice `[0:5]` is in bounds; the identifier is exactly the first five
characters of that string, has length 5, consists of lowercase hexadecimal
digits only (no hyphen), and is a function of the first 20 bits alone. -/
theorem shortURLId_is_first_five_hex_digits (u : UUID) :
    (uuidString u).length = 36 ∧
    ∃ id : String, sliceString (uuidString u) 0 5 = some id ∧
      id.data = (uuidString u).data.take 5 ∧
      id.length = 5 ∧
      (∀ c ∈ id.data, ('0' ≤ c ∧ c ≤ '9') ∨ ('a' ≤ c ∧ c ≤ 'f')) ∧
      '-' ∉ id.data ∧
      id = hex5 (first20Bits u) := by
  refine ⟨by simp [uuidString, hexEncode, String.length], _, sliceString_uuidString u, ?_, ?_, ?_, ?_, ?_⟩
  · simp [uuidString, hexEncode]
  · simp [String.length]
  · intro c hc
    apply hextable_lower_hex
    simp only [List.mem_cons, List.mem_singleton, List.not_mem_nil, or_false] at hc
    rcases hc with h | h | h | h | h <;> subst h <;> apply hextable_getD_mem <;> omega
  · intro hc
    have hmem : ∀ c ∈ [hextable.getD ((u 0).val / 16) '0', hextable.getD ((u 0).val % 16) '0',
        hextable.getD ((u 1).val / 16) '0', hextable.getD ((u 1).val % 16) '0',
        hextable.getD ((u 2).val / 16) '0'], c ∈ hextable := by
      intro c hc
      simp only [List.mem_cons, List.mem_singleton, List.not_mem_nil, or_false] at hc
      rcases hc with h | h | h | h | h <;> subst h <;> apply hextable_getD_mem <;> omega
    have := hmem _ hc
    simp [hextable] at this
  · have h0 := (u 0).isLt
    have h1 := (u 1).isLt
    have h2 := (u 2).isLt
    have e1 : first20Bits u / 65536 % 16 = (u 0).val / 16 := by unfold first20Bits; omega
    have e2 : first20Bits u / 4096 % 16 = (u 0).val % 16 := by unfold first20Bits; omega
    have e3 : first20Bits u / 256 % 16 = (u 1).val / 16 := by unfold first20Bits; omega
    have e4 : first20Bits u / 16 % 16 = (u 1).val % 16 := by unfold first20Bits; omega
    have e5 : first20Bits u % 16 = (u 2).val / 16 := by unfold first20Bits; omega
    simp only [hex5, e1, e2, e3, e4, e5]

/-! ## The shortener -/

/-- What `Shorten.prepare` yields when decoding, session, UUID and lookup succeed
and the candidate is absent: the handler goes on to the write. -/
theorem Shorten.prepare_ready (env : Env) (t : Table) (request : APIGatewayProxyRequest)
    (body : Request) (uuid : UUID) (c : String)
    (hbody : env.jsonUnmarshal request.Body = .ok body) (hsess : env.newSession = none)
    (huuid : env.newV4 = .ok uuid) (hc : sliceString (uuidString uuid) 0 5 = some c)
    (hget : env.getItemErr = none) (habs : t c = none) :
    Shorten.prepare env t request = some (.ready c body) := by
  simp [Shorten.prepare, hbody, hsess, huuid, hc, GetItem, hget, habs]

/-- The handler when its first part hands on to the write. -/
theorem Shorten.handleRequest_ready (env : Env) (t : Table) (request : APIGatewayProxyRequest)
    (body : Request) (c : String) (h : Shorten.prepare env t request = some (.ready c body)) :
    Shorten.handleRequest env t request =
      some ((Shorten.persist env t c body).after [.GetItem c]) := by
  simp [Shorten.handleRequest, h]

/-- The write of the shortener when `PutItem` reports no error. -/
theorem Shorten.persist_ok (env : Env) (t : Table) (c : String) (body : Request)
    (hput : env.putItemErr = none) :
    Shorten.persist env t c body =
      ⟨⟨200, [], BaseURL ++ "/" ++ c⟩, none, t.set c ⟨body.URL, 0⟩, [.PutItem ⟨c, body.URL, 0⟩]⟩ := by
  simp [Shorten.persist, PutItem, hput]

/-- C7: for every table, every non-empty long URL `u` and every candidate `c`
absent from the table, a shorten whose library and store calls all succeed
returns status 200 with the body `BaseURL/c`, which begins with the base URL
and ends with `c`; the table afterwards holds `(u, 0)` under `c` and what it
held before under every other id; the calls issued are one `GetItem` and one
`PutItem`. -/
theorem shorten_success_creates_one_record (env : Env) (t : Table)
    (request : APIGatewayProxyRequest) (u : String) (uuid : UUID) (c : String)
    (hbody : env.jsonUnmarshal request.Body = .ok ⟨u⟩) (_hu : u ≠ "")
    (hsess : env.newSession = none) (huuid : env.newV4 = .ok uuid)
    (hc : sliceString (uuidString uuid) 0 5 = some c)
    (hget : env.getItemErr = none) (hput : env.putItemErr = none) (habs : t c = none) :
    ∃ out, Shorten.handleRequest env t request = some out ∧
      out.response.StatusCode = 200 ∧ out.err = none ∧
      out.response.Body = BaseURL ++ "/" ++ c ∧
      BaseURL.data <+: out.response.Body.data ∧ c.data <:+ out.response.Body.data ∧
      out.table c = some ⟨u, 0⟩ ∧ (∀ j, j ≠ c → out.table j = t j) ∧
      out.calls = [.GetItem c, .PutItem ⟨c, u, 0⟩] := by
  refine ⟨_, Shorten.handleRequest_ready env t request ⟨u⟩ c
    (Shorten.prepare_ready env t request ⟨u⟩ uuid c hbody hsess huuid hc hget habs), ?_⟩
  rw [Shorten.persist_ok env t c ⟨u⟩ hput]
  refine ⟨rfl, rfl, rfl, ⟨"/".data ++ c.data, ?_⟩, ⟨BaseURL.data ++ "/".data, ?_⟩, ?_, ?_, rfl⟩
  · simp [Outcome.after, String.data_append]
  · simp [Outcome.after, String.data_append]
  · simp [Outcome.after]
  · intro j hj
    simp [Outcome.after, Table.set_other _ _ _ _ hj]

/-- C8: for every table in which the lookup of the generated candidate finds a
record, the shorten handler returns status 500 with the message that asks to
try again, issues the `GetItem` only (no write), and leaves the table as it
was. -/
theorem shorten_existing_id_is_collision (env : Env) (t : Table)
    (request : APIGatewayProxyRequest) (body : Request) (uuid : UUID) (c : String) (r : Record)
    (hbody : env.jsonUnmarshal request.Body = .ok body) (hsess : env.newSession = none)
    (huuid : env.newV4 = .ok uuid) (hc : sliceString (uuidString uuid) 0 5 = some c)
    (hget : env.getItemErr = none) (hrec : t c = some r) :
    ∃ out, Shorten.handleRequest env t request = some out ∧
      out.response.StatusCode = 500 ∧
      out.response.Body = "The generated short url id already exists in DynamoDB--please try creating a shortened url again." ∧
      out.calls = [.GetItem c] ∧ out.table = t ∧ out.table c = some r := by
  simp [Shorten.handleRequest, Shorten.prepare, hbody, hsess, huuid, hc, GetItem, hget, hrec]

/-! ## The redirector -/

/-- The first part of the redirect handler on a record that decodes. -/
theorem Redirect.lookup_found (env : Env) (t : Table) (request : APIGatewayProxyRequest)
    (i u : String) (h : Int)
    (hsess : env.newSession = none) (hget : env.getItemErr = none)
    (hid : request.PathParameters.lookup "id" = some i) (hrec : t i = some ⟨u, h⟩)
    (hlo : -(2 ^ 63) ≤ h) (hhi : h < 2 ^ 63) :
    Redirect.lookup env t request = .inr ⟨i, u, h⟩ := by
  have hf : fitsInt h = true := (fitsInt_iff h).2 ⟨hlo, hhi⟩
  simp [Redirect.lookup, hsess, GetItem, hget, hid, hrec, UnmarshalMap, hf]

/-- The second part of the redirect handler when the increment does not
overflow and `UpdateItem` reports no error. -/
theorem Redirect.respond_ok (env : Env) (t : Table) (i u v : String) (h c : Int)
    (hupd : env.updateItemErr = none) (hrec : t i = some ⟨v, c⟩)
    (hlo : -(2 ^ 63) ≤ h) (hhi : h < 2 ^ 63 - 1) :
    Redirect.respond env t ⟨i, u, h⟩ =
      ⟨⟨308, [("location", u)], ""⟩, none, t.set i ⟨v, h + 1⟩, [.UpdateItem i (h + 1)]⟩ := by
  have hw : wrapInt (h + 1) = h + 1 := wrapInt_of_fits _ (by omega) (by omega)
  simp [Redirect.respond, Redirect.updateHitCountAttribute, UpdateItem, hupd, hrec, hw]

/-- C6: for every table and every identifier without a record in it, the
redirect handler leaves the table as it was and issues no `UpdateItem` (nor
`PutItem`); when the session and the `GetItem` call succeed it answers 404 with
the not-found message, having issued the `GetItem` only. -/
theorem redirect_unknown_id_not_found (env : Env) (t : Table)
    (request : APIGatewayProxyRequest) (i : String)
    (hid : request.PathParameters.lookup "id" = some i) (habs : t i = none) :
    (Redirect.handleRequest env t request).table = t ∧
    (Redirect.handleRequest env t request).table i = none ∧
    (∀ call ∈ (Redirect.handleRequest env t request).calls, call = StoreCall.GetItem i) ∧
    (env.newSession = none → env.getItemErr = none →
      (Redirect.handleRequest env t request).response =
        ⟨404, [], "This short url does not correspond to a longer URL."⟩ ∧
      (Redirect.handleRequest env t request).calls = [.GetItem i]) := by
  cases hs : env.newSession with
  | some e => simp [Redirect.handleRequest, Redirect.lookup, hs, habs]
  | none =>
    cases hg : env.getItemErr with
    | some e => simp [Redirect.handleRequest, Redirect.lookup, hs, GetItem, hg, hid, habs]
    | none => simp [Redirect.handleRequest, Redirect.lookup, hs, GetItem, hg, hid, habs]

/-! ## Round trip -/

/-- C1: for every table, every long URL `u` and every generated candidate `c`
absent from the table, when all library and store calls succeed, the shorten
handler returns `BaseURL/c` with status 200, and the redirect handler called
with path parameter `id = c` on the table the shortener left returns status 308
with the `location` header equal to `u`. -/
theorem shorten_then_redirect_round_trip (env env' : Env) (t : Table)
    (request redirectRequest : APIGatewayProxyRequest) (u : String) (uuid : UUID) (c : String)
    (hbody : env.jsonUnmarshal request.Body = .ok ⟨u⟩)
    (hsess : env.newSession = none) (huuid : env.newV4 = .ok uuid)
    (hc : sliceString (uuidString uuid) 0 5 = some c)
    (hget : env.getItemErr = none) (hput : env.putItemErr = none) (habs : t c = none)
    (hsess' : env'.newSession = none) (hget' : env'.getItemErr = none)
    (hupd' : env'.updateItemErr = none)
    (hid : redirectRequest.PathParameters.lookup "id" = some c) :
    ∃ out, Shorten.handleRequest env t request = some out ∧
      out.response = ⟨200, [], BaseURL ++ "/" ++ c⟩ ∧
      (Redirect.handleRequest env' out.table redirectRequest).response =
        ⟨308, [("location", u)], ""⟩ ∧
      (Redirect.handleRequest env' out.table redirectRequest).response.Headers.lookup "location" =
        some u := by
  refine ⟨_, Shorten.handleRequest_ready env t request ⟨u⟩ c
    (Shorten.prepare_ready env t request ⟨u⟩ uuid c hbody hsess huuid hc hget habs), ?_⟩
  rw [Shorten.persist_ok env t c ⟨u⟩ hput]
  have hrec : (t.set c ⟨u, 0⟩) c = some ⟨u, 0⟩ := Table.set_same _ _ _
  have hl := Redirect.lookup_found env' (t.set c ⟨u, 0⟩) redirectRequest c u 0 hsess' hget' hid hrec
    (by norm_num) (by norm_num)
  have hr := Redirect.respond_ok env' (t.set c ⟨u, 0⟩) c u u 0 0 hupd' hrec (by norm_num) (by norm_num)
  simp [Outcome.after, Redirect.handleRequest, hl, hr]

/-! ## The write of the shortener is unconditional -/

/-- C3 (counterexample): two shorten invocations draw the same candidate `abcde`
and both look it up in the empty table before either writes. The first write
stores `https://example.com/page`; at the second write the table holds that
record, yet the write succeeds with status 200 and replaces its long URL. -/
theorem shorten_persist_overwrite_counterexample :
    Shorten.prepare sampleEnv Table.empty ⟨"\x7b\"url\":\"https://example.com/page\"\x7d", []⟩ =
      some (.ready "abcde" ⟨"https://example.com/page"⟩) ∧
    Shorten.prepare sampleEnv Table.empty ⟨"\x7b\"url\":\"https://example.org/other\"\x7d", []⟩ =
      some (.ready "abcde" ⟨"https://example.org/other"⟩) ∧
    (Shorten.persist sampleEnv Table.empty "abcde" ⟨"https://example.com/page"⟩).table "abcde" =
      some ⟨"https://example.com/page", 0⟩ ∧
    (Shorten.persist sampleEnv
      (Shorten.persist sampleEnv Table.empty "abcde" ⟨"https://example.com/page"⟩).table
      "abcde" ⟨"https://example.org/other"⟩).response =
      ⟨200, [], "https://mkleyn.org/abcde"⟩ ∧
    (Shorten.persist sampleEnv
      (Shorten.persist sampleEnv Table.empty "abcde" ⟨"https://example.com/page"⟩).table
      "abcde" ⟨"https://example.org/other"⟩).table "abcde" =
      some ⟨"https://example.org/other", 0⟩ := by
  refine ⟨?_, ?_, ?_, ?_, ?_⟩
  · exact Shorten.prepare_ready _ _ _ _ sampleUUID _ rfl rfl rfl (by decide) rfl rfl
  · exact Shorten.prepare_ready _ _ _ _ sampleUUID _ rfl rfl rfl (by decide) rfl rfl
  · decide
  · decide
  · decide

/-- C3 (amended): the write of the shortener is an unconditional put. For every
table that already holds a record under the candidate id when the write is
performed, and every long URL to be written, a `PutItem` call that reports no
error makes the handler answer 200 with the short URL and replaces the record
by `(longURL, 0)`; every other record is unchanged. -/
theorem shorten_persist_replaces_existing (env : Env) (t : Table) (c : String) (body : Request)
    (r : Record) (hput : env.putItemErr = none) (_hrec : t c = some r) :
    (Shorten.persist env t c body).response = ⟨200, [], BaseURL ++ "/" ++ c⟩ ∧
    (Shorten.persist env t c body).err = none ∧
    (Shorten.persist env t c body).table c = some ⟨body.URL, 0⟩ ∧
    (∀ j, j ≠ c → (Shorten.persist env t c body).table j = t j) ∧
    (Shorten.persist env t c body).calls = [.PutItem ⟨c, body.URL, 0⟩] := by
  rw [Shorten.persist_ok env t c body hput]
  exact ⟨rfl, rfl, Table.set_same _ _ _, fun j hj => Table.set_other _ _ _ _ hj, rfl⟩

/-- C3 (amended) at a sample input: the record `abcde` with hit count 7 is replaced by the new
URL with hit count 0. -/
theorem shorten_persist_replaces_existing_witness :
    sampleTable 7 "abcde" = some ⟨"https://example.com/page", 7⟩ ∧
    (Shorten.persist sampleEnv (sampleTable 7) "abcde" ⟨"https://example.org/other"⟩).table "abcde" =
      some ⟨"https://example.org/other", 0⟩ :=
  ⟨by decide, (shorten_persist_replaces_existing sampleEnv (sampleTable 7) "abcde"
    ⟨"https://example.org/other"⟩ ⟨"https://example.com/page", 7⟩ rfl (by decide)).2.2.1⟩

/-! ## The shortener does not validate the URL -/

/-- C4 (counterexample): on the empty table, the body with an empty `url` is
answered with status 200 and the record `("", 0)` is written under `abcde`. -/
theorem shorten_empty_url_counterexample :
    sampleEnv.jsonUnmarshal "\x7b\"url\":\"\"\x7d" = .ok ⟨""⟩ ∧
    Table.empty "abcde" = none ∧
    (Shorten.handleRequest sampleEnv Table.empty ⟨"\x7b\"url\":\"\"\x7d", []⟩).map
      (fun out => (out.response, out.table "abcde")) =
      some (⟨200, [], "https://mkleyn.org/abcde"⟩, some ⟨"", 0⟩) := by
  refine ⟨rfl, rfl, ?_⟩
  rw [Shorten.handleRequest_ready sampleEnv Table.empty ⟨"\x7b\"url\":\"\"\x7d", []⟩ ⟨""⟩ "abcde"
    (Shorten.prepare_ready _ _ _ _ sampleUUID _ rfl rfl rfl (by decide) rfl rfl)]
  decide

/-- C4 (amended): for every table and every request whose `url` is empty or
missing, the shorten handler returns, with status 200 or 500 and never a
4xx-class status; it does not validate the URL: when the session, the UUID
and both store calls succeed and the candidate `c` is absent, it answers 200
and writes the record `("", 0)` under `c`; whenever it answers 500 the table
is as it was before the call. -/
theorem shorten_empty_url_not_validated (env : Env) (t : Table)
    (request : APIGatewayProxyRequest)
    (hbody : env.jsonUnmarshal request.Body = .ok ⟨""⟩) :
    ∃ out, Shorten.handleRequest env t request = some out ∧
      (out.response.StatusCode = 200 ∨ out.response.StatusCode = 500) ∧
      (out.response.StatusCode = 500 → out.table = t) ∧
      (∀ uuid c, env.newSession = none → env.newV4 = .ok uuid →
        sliceString (uuidString uuid) 0 5 = some c →
        env.getItemErr = none → env.putItemErr = none → t c = none →
        out.response = ⟨200, [], BaseURL ++ "/" ++ c⟩ ∧ out.table c = some ⟨"", 0⟩ ∧
          out.calls = [.GetItem c, .PutItem ⟨c, "", 0⟩]) := by
  cases hs : env.newSession with
  | some e => simp [Shorten.handleRequest, Shorten.prepare, hbody, hs]
  | none =>
    cases hv : env.newV4 with
    | error e => simp [Shorten.handleRequest, Shorten.prepare, hbody, hs, hv]
    | ok uuid =>
      obtain ⟨c, hc⟩ : ∃ c, sliceString (uuidString uuid) 0 5 = some c :=
        ⟨_, sliceString_uuidString uuid⟩
      cases hg : env.getItemErr with
      | some e => simp [Shorten.handleRequest, Shorten.prepare, hbody, hs, hv, hc, GetItem, hg]
      | none =>
        cases ht : t c with
        | some r =>
          simp [Shorten.handleRequest, Shorten.prepare, hbody, hs, hv, hc, GetItem, hg, ht]
          rintro uuid' c' rfl hc' _
          rw [hc] at hc'
          cases hc'
          simp [ht]
        | none =>
          cases hp : env.putItemErr with
          | some e =>
            simp [Shorten.handleRequest, Shorten.prepare, hbody, hs, hv, hc, GetItem, hg, ht,
              Shorten.persist, PutItem, hp, Outcome.after]
          | none =>
            simp [Shorten.handleRequest, Shorten.prepare, hbody, hs, hv, hc, GetItem, hg, ht,
              Shorten.persist, PutItem, hp, Outcome.after]
            rintro uuid' c' rfl hc' _
            rw [hc] at hc'
            cases hc'
            simp

/-- C4 (amended) at a sample input: the body without a `url` field, on the empty table. -/
theorem shorten_empty_url_not_validated_witness :
    sampleEnv.jsonUnmarshal "\x7b\x7d" = .ok ⟨""⟩ ∧
    ∃ out, Shorten.handleRequest sampleEnv Table.empty ⟨"\x7b\x7d", []⟩ = some out ∧
      out.response = ⟨200, [], BaseURL ++ "/" ++ "abcde"⟩ ∧ out.table "abcde" = some ⟨"", 0⟩ := by
  refine ⟨rfl, ?_⟩
  obtain ⟨out, h1, _, _, h4⟩ :=
    shorten_empty_url_not_validated sampleEnv Table.empty ⟨"\x7b\x7d", []⟩ rfl
  obtain ⟨h5, h6, _⟩ := h4 sampleUUID "abcde" rfl rfl (by decide) rfl rfl rfl
  exact ⟨out, h1, h5, h6⟩

/-! ## A redirect increments the hit count -/

/-- The redirect handler on a record whose hit count can be incremented, when the
session and both store calls succeed. -/
theorem Redirect.handleRequest_found (env : Env) (t : Table) (request : APIGatewayProxyRequest)
    (i u : String) (h : Int)
    (hsess : env.newSession = none) (hget : env.getItemErr = none)
    (hupd : env.updateItemErr = none)
    (hid : request.PathParameters.lookup "id" = some i) (hrec : t i = some ⟨u, h⟩)
    (hlo : -(2 ^ 63) ≤ h) (hhi : h < 2 ^ 63 - 1) :
    Redirect.handleRequest env t request =
      ⟨⟨308, [("location", u)], ""⟩, none, t.set i ⟨u, h + 1⟩,
        [.GetItem i, .UpdateItem i (h + 1)]⟩ := by
  have hl := Redirect.lookup_found env t request i u h hsess hget hid hrec hlo (by omega)
  have hr := Redirect.respond_ok env t i u u h h hupd hrec hlo hhi
  simp [Redirect.handleRequest, hl, hr, Outcome.after, hid]

/-- Successive redirects for one id, none of them overflowing the counter. -/
theorem Redirect.successive_found (env : Env) (request : APIGatewayProxyRequest) (i u : String)
    (hsess : env.newSession = none) (hget : env.getItemErr = none)
    (hupd : env.updateItemErr = none)
    (hid : request.PathParameters.lookup "id" = some i) :
    ∀ (k : Nat) (t : Table) (h : Int), t i = some ⟨u, h⟩ → -(2 ^ 63) ≤ h → h + k < 2 ^ 63 →
      (Redirect.successive env request k t).1 i = some ⟨u, h + k⟩ ∧
      (∀ j, j ≠ i → (Redirect.successive env request k t).1 j = t j) ∧
      (Redirect.successive env request k t).2 =
        List.replicate k ⟨308, [("location", u)], ""⟩ := by
  intro k
  induction k with
  | zero =>
    intro t h hrec _ _
    simp [Redirect.successive, hrec]
  | succ k ih =>
    intro t h hrec hlo hhi
    have hstep := Redirect.handleRequest_found env t request i u h hsess hget hupd hid hrec hlo
      (by push_cast at hhi; omega)
    obtain ⟨h1, h2, h3⟩ := ih (t.set i ⟨u, h + 1⟩) (h + 1) (Table.set_same _ _ _) (by omega)
      (by push_cast at hhi; omega)
    simp only [Redirect.successive, hstep]
    refine ⟨?_, ?_, ?_⟩
    · rw [h1]; push_cast; congr 2; ring
    · intro j hj
      rw [h2 j hj, Table.set_other _ _ _ _ hj]
    · rw [h3, List.replicate_succ]

/-- C5 (counterexample): with the hit count `2^63 - 1` stored, a redirect whose
store calls all succeed answers 308 with the long URL, and the `int` increment
wraps: the stored hit count becomes `-2^63`, not `h + 1`. -/
theorem redirect_hitCount_wraps_counterexample :
    sampleTable (2 ^ 63 - 1) "abcde" = some ⟨"https://example.com/page", 2 ^ 63 - 1⟩ ∧
    (Redirect.handleRequest sampleEnv (sampleTable (2 ^ 63 - 1)) sampleRedirect).response =
      ⟨308, [("location", "https://example.com/page")], ""⟩ ∧
    (Redirect.handleRequest sampleEnv (sampleTable (2 ^ 63 - 1)) sampleRedirect).table "abcde" =
      some ⟨"https://example.com/page", -(2 ^ 63)⟩ ∧
    (Redirect.handleRequest sampleEnv (sampleTable (2 ^ 63 - 1)) sampleRedirect).table "abcde" ≠
      some ⟨"https://example.com/page", (2 ^ 63 - 1) + 1⟩ := by
  refine ⟨?_, ?_, ?_, ?_⟩ <;> decide

/-- C5 (amended): for every table holding under `i` the long URL `u` and a hit
count `h` with `-2^63 ≤ h < 2^63 - 1`, a redirect for `i` whose session and
store calls succeed answers 308 with `location = u`, leaves under `i` the same
long URL with hit count `h + 1`, and leaves every other record unchanged; and
`k` successive redirects with `h + k < 2^63` all answer 308 with
`location = u` and leave the hit count `h + k`. -/
theorem redirect_success_increments_hitCount (env : Env) (t : Table)
    (request : APIGatewayProxyRequest) (i u : String) (h : Int)
    (hsess : env.newSession = none) (hget : env.getItemErr = none)
    (hupd : env.updateItemErr = none)
    (hid : request.PathParameters.lookup "id" = some i) (hrec : t i = some ⟨u, h⟩)
    (hlo : -(2 ^ 63) ≤ h) (hhi : h < 2 ^ 63 - 1) :
    ((Redirect.handleRequest env t request).response = ⟨308, [("location", u)], ""⟩ ∧
      (Redirect.handleRequest env t request).err = none ∧
      (Redirect.handleRequest env t request).table i = some ⟨u, h + 1⟩ ∧
      (∀ j, j ≠ i → (Redirect.handleRequest env t request).table j = t j) ∧
      (Redirect.handleRequest env t request).calls = [.GetItem i, .UpdateItem i (h + 1)]) ∧
    ∀ k : Nat, h + k < 2 ^ 63 →
      (Redirect.successive env request k t).1 i = some ⟨u, h + k⟩ ∧
      (∀ j, j ≠ i → (Redirect.successive env request k t).1 j = t j) ∧
      (Redirect.successive env request k t).2 = List.replicate k ⟨308, [("location", u)], ""⟩ := by
  constructor
  · rw [Redirect.handleRequest_found env t request i u h hsess hget hupd hid hrec hlo hhi]
    exact ⟨rfl, rfl, Table.set_same _ _ _, fun j hj => Table.set_other _ _ _ _ hj, rfl⟩
  · intro k hk
    exact Redirect.successive_found env request i u hsess hget hupd hid k t h hrec hlo hk

/-- C5 (amended) at a sample input: one redirect for `abcde` stored with hit count 0. -/
theorem redirect_success_increments_hitCount_witness :
    sampleTable 0 "abcde" = some ⟨"https://example.com/page", 0⟩ ∧
    (Redirect.handleRequest sampleEnv (sampleTable 0) sampleRedirect).response =
      ⟨308, [("location", "https://example.com/page")], ""⟩ ∧
    (Redirect.handleRequest sampleEnv (sampleTable 0) sampleRedirect).table "abcde" =
      some ⟨"https://example.com/page", 0 + 1⟩ :=
  have w := redirect_success_increments_hitCount sampleEnv (sampleTable 0) sampleRedirect
    "abcde" "https://example.com/page" 0 rfl rfl rfl rfl (by decide) (by decide) (by decide)
  ⟨by decide, w.1.1, w.1.2.2.1⟩

/-! ## Failure responses -/

/-- The shorten handler always returns (the slice never panics), and each of its
responses other than 200 carries a message and leaves the table as it was. -/
theorem Shorten.failure_has_message (env : Env) (t : Table) (request : APIGatewayProxyRequest) :
    ∃ out, Shorten.handleRequest env t request = some out ∧
      (out.response.StatusCode ≠ 200 →
        out.response.StatusCode = 500 ∧ out.response.Body ≠ "" ∧ out.table = t) := by
  cases hb : env.jsonUnmarshal request.Body with
  | error e => simp [Shorten.handleRequest, Shorten.prepare, hb]
  | ok body =>
    cases hs : env.newSession with
    | some e => simp [Shorten.handleRequest, Shorten.prepare, hb, hs]
    | none =>
      cases hv : env.newV4 with
      | error e => simp [Shorten.handleRequest, Shorten.prepare, hb, hs, hv]
      | ok uuid =>
        obtain ⟨c, hc⟩ : ∃ c, sliceString (uuidString uuid) 0 5 = some c :=
          ⟨_, sliceString_uuidString uuid⟩
        cases hg : env.getItemErr with
        | some e => simp [Shorten.handleRequest, Shorten.prepare, hb, hs, hv, hc, GetItem, hg]
        | none =>
          cases ht : t c with
          | some r =>
            simp [Shorten.handleRequest, Shorten.prepare, hb, hs, hv, hc, GetItem, hg, ht]
          | none =>
            cases hp : env.putItemErr with
            | some e =>
              simp [Shorten.handleRequest, Shorten.prepare, hb, hs, hv, hc, GetItem, hg, ht,
                Shorten.persist, PutItem, hp, Outcome.after]
            | none =>
              simp [Shorten.handleRequest, Shorten.prepare, hb, hs, hv, hc, GetItem, hg, ht,
                Shorten.persist, PutItem, hp, Outcome.after]

/-- The redirect handler answers a failure with an empty body exactly on its two
returns after the lookup: the record does not decode, or `UpdateItem` reports
an error. -/
theorem Redirect.failure_without_message (env : Env) (t : Table)
    (request : APIGatewayProxyRequest) (i : String)
    (hid : request.PathParameters.lookup "id" = some i)
    (hstatus : (Redirect.handleRequest env t request).response.StatusCode ≠ 308)
    (hbody : (Redirect.handleRequest env t request).response.Body = "") :
    env.newSession = none ∧ env.getItemErr = none ∧
      ∃ r, t i = some r ∧ (fitsInt r.HitCount = false ∨ env.updateItemErr ≠ none) := by
  cases hs : env.newSession with
  | some e => simp [Redirect.handleRequest, Redirect.lookup, hs] at hbody
  | none =>
    cases hg : env.getItemErr with
    | some e => simp [Redirect.handleRequest, Redirect.lookup, hs, GetItem, hg] at hbody
    | none =>
      cases ht : t i with
      | none => simp [Redirect.handleRequest, Redirect.lookup, hs, GetItem, hg, hid, ht] at hbody
      | some r =>
        refine ⟨rfl, rfl, r, rfl, ?_⟩
        cases hf : fitsInt r.HitCount with
        | false => exact Or.inl rfl
        | true =>
          right
          intro hu
          apply hstatus
          simp [Redirect.handleRequest, Redirect.lookup, hs, GetItem, hg, hid, ht, UnmarshalMap,
            hf, Redirect.respond, Redirect.updateHitCountAttribute, UpdateItem, hu,
            Outcome.after]

/-- C9 (failing inputs): a redirect for an existing id whose `UpdateItem` call
reports an error, and a redirect for a record whose `HitCount` does not decode
into an `int`, both return status 500 with an empty body, while the other
failure paths of the same handler carry a message. -/
theorem redirect_failure_with_empty_body :
    (Redirect.handleRequest { sampleEnv with updateItemErr := some "RequestError: send request failed" }
      (sampleTable 0) sampleRedirect).response = ⟨500, [], ""⟩ ∧
    (Redirect.handleRequest sampleEnv (sampleTable (2 ^ 63)) sampleRedirect).response =
      ⟨500, [], ""⟩ ∧
    (Redirect.handleRequest { sampleEnv with getItemErr := some "RequestError: send request failed" }
      (sampleTable 0) sampleRedirect).response =
      ⟨500, [], "An error was encountered reading from DynamoDB."⟩ := by
  refine ⟨?_, ?_, ?_⟩ <;> decide

/-! ## Concurrent redirects -/

theorem returnedCount_update_of_iff (ph : Nat → Phase) (k : Nat) (p : Phase) :
    ∀ n, (k < n → (p.rank = 2 ↔ (ph k).rank = 2)) →
      returnedCount (Function.update ph k p) n = returnedCount ph n := by
  intro n
  induction n with
  | zero => intro _; rfl
  | succ n ih =>
    intro hk
    simp only [returnedCount]
    rw [ih (fun hlt => hk (Nat.lt_succ_of_lt hlt))]
    by_cases hnk : n = k
    · subst hnk
      have hiff := hk (Nat.lt_succ_self _)
      by_cases hp : p.rank = 2
      · simp [Function.update_same, hp, hiff.1 hp]
      · have hq : ¬ (ph n).rank = 2 := fun hq => hp (hiff.2 hq)
        simp [Function.update_same, hp, hq]
    · rw [Function.update_noteq hnk]

theorem returnedCount_update_returned (ph : Nat → Phase) (k : Nat) (p : Phase)
    (hold : (ph k).rank ≠ 2) (hp : p.rank = 2) :
    ∀ n, k < n → returnedCount (Function.update ph k p) n = returnedCount ph n + 1 := by
  intro n
  induction n with
  | zero => intro hk; omega
  | succ n ih =>
    intro hk
    simp only [returnedCount]
    by_cases hnk : n = k
    · subst hnk
      rw [returnedCount_update_of_iff ph n p n (fun hlt => absurd hlt (Nat.lt_irrefl _))]
      simp [Function.update_same, hp, hold]
    · have hlt : k < n := by omega
      rw [ih hlt, Function.update_noteq hnk]
      omega

theorem returnedCount_le (ph : Nat → Phase) : ∀ n, returnedCount ph n ≤ n := by
  intro n
  induction n with
  | zero => simp [returnedCount]
  | succ n ih =>
    simp only [returnedCount]
    split <;> omega

theorem returnedCount_lt (ph : Nat → Phase) (k : Nat) (hk : (ph k).rank ≠ 2) :
    ∀ n, k < n → returnedCount ph n < n := by
  intro n
  induction n with
  | zero => intro hlt; omega
  | succ n ih =>
    intro hlt
    simp only [returnedCount]
    by_cases hnk : n = k
    · subst hnk
      have hle := returnedCount_le ph n
      simp only [hk, if_false]
      omega
    · have hrec := ih (by omega)
      split <;> omega

theorem returnedCount_all (ph : Nat → Phase) :
    ∀ n, (∀ k, k < n → (ph k).rank = 2) → returnedCount ph n = n := by
  intro n
  induction n with
  | zero => intro _; rfl
  | succ n ih =>
    intro hall
    simp only [returnedCount]
    rw [ih (fun k hk => hall k (Nat.lt_succ_of_lt hk))]
    simp [hall n (Nat.lt_succ_self n)]

theorem returnedCount_none (ph : Nat → Phase) :
    ∀ n, (∀ k, k < n → (ph k).rank ≠ 2) → returnedCount ph n = 0 := by
  intro n
  induction n with
  | zero => intro _; rfl
  | succ n ih =>
    intro hall
    simp only [returnedCount]
    rw [ih (fun k hk => hall k (Nat.lt_succ_of_lt hk))]
    simp [hall n (Nat.lt_succ_self n)]

/-- The invariant holds before any invocation has taken a step. -/
theorem RedirectInv.initially (N : Nat) (i u : String) (h : Int) (t : Table)
    (hrec : t i = some ⟨u, h⟩) : RedirectInv N i u h (World.init t) := by
  have hzero : returnedCount (World.init t).phase N = 0 :=
    returnedCount_none _ N (fun k _ => by simp [World.init, Phase.rank])
  constructor
  · exact ⟨h, hrec, le_refl _, by omega, by omega⟩
  · intro k item hk
    simp [World.init] at hk

/-- One step of invocation `k` keeps the invariant and advances the rank of `k`
only. -/
theorem World.step_preserves (env : Env) (request : APIGatewayProxyRequest) (N : Nat)
    (i u : String) (h : Int) (w : World) (k : Nat)
    (hsess : env.newSession = none) (hget : env.getItemErr = none)
    (hupd : env.updateItemErr = none)
    (hid : request.PathParameters.lookup "id" = some i)
    (hlo : -(2 ^ 63) ≤ h) (hhi : h + N < 2 ^ 63) (hk : k < N)
    (hinv : RedirectInv N i u h w) :
    RedirectInv N i u h (World.step env request w k) ∧
    ∀ j, ((World.step env request w k).phase j).rank =
      if j = k then min 2 ((w.phase k).rank + 1) else (w.phase j).rank := by
  obtain ⟨⟨c, hc, hc1, hc2, hc3⟩, hheld⟩ := hinv
  have hle := returnedCount_le w.phase N
  cases hph : w.phase k with
  | start =>
    have hl := Redirect.lookup_found env w.table request i u c hsess hget hid hc (by omega)
      (by omega)
    have hstep : World.step env request w k =
        ⟨w.table, Function.update w.phase k (.holding ⟨i, u, c⟩)⟩ := by
      simp [World.step, hph, hl]
    have hD : returnedCount (Function.update w.phase k (.holding ⟨i, u, c⟩)) N =
        returnedCount w.phase N :=
      returnedCount_update_of_iff _ _ _ _ (fun _ => by simp [hph, Phase.rank])
    rw [hstep]
    refine ⟨⟨⟨c, hc, hc1, by simpa [hD] using hc2, by simpa [hD] using hc3⟩, ?_⟩, ?_⟩
    · intro k' item hk'
      simp only [hD]
      by_cases hkk : k' = k
      · subst hkk
        simp only [Function.update_same, Phase.holding.injEq] at hk'
        subst hk'
        exact ⟨hk, rfl, hc1, hc2⟩
      · simp only [Function.update_noteq hkk] at hk'
        exact hheld k' item hk'
    · intro j
      by_cases hjk : j = k
      · subst hjk
        simp [Function.update_same, Phase.rank]
      · simp [Function.update_noteq hjk, hjk]
  | holding item =>
    obtain ⟨_, hitem, hlo', hhi'⟩ := hheld k item hph
    have hlt := returnedCount_lt w.phase k (by simp [hph, Phase.rank]) N hk
    obtain ⟨id, lu, cnt⟩ := item
    simp only at hitem hlo' hhi'
    subst hitem
    have hr := Redirect.respond_ok env w.table id lu u cnt c hupd hc (by omega) (by omega)
    have hstep : World.step env request w k =
        ⟨w.table.set id ⟨u, cnt + 1⟩,
          Function.update w.phase k (.returned ⟨308, [("location", lu)], ""⟩)⟩ := by
      simp [World.step, hph, hr]
    have hD : returnedCount
        (Function.update w.phase k (.returned ⟨308, [("location", lu)], ""⟩)) N =
        returnedCount w.phase N + 1 :=
      returnedCount_update_returned _ _ _ (by simp [hph, Phase.rank]) (by simp [Phase.rank]) N hk
    rw [hstep]
    refine ⟨⟨⟨cnt + 1, Table.set_same _ _ _, by omega, ?_, fun _ => by omega⟩, ?_⟩, ?_⟩
    · simp only [hD]
      push_cast
      omega
    · intro k' item hk'
      simp only [hD]
      by_cases hkk : k' = k
      · subst hkk
        simp [Function.update_same] at hk'
      · simp only [Function.update_noteq hkk] at hk'
        obtain ⟨a1, a2, a3, a4⟩ := hheld k' item hk'
        refine ⟨a1, a2, a3, ?_⟩
        push_cast
        omega
    · intro j
      by_cases hjk : j = k
      · subst hjk
        simp [Function.update_same, Phase.rank]
      · simp [Function.update_noteq hjk, hjk]
  | returned resp =>
    have hstep : World.step env request w k = w := by
      simp [World.step, hph]
    rw [hstep]
    refine ⟨⟨⟨c, hc, hc1, hc2, hc3⟩, hheld⟩, ?_⟩
    intro j
    by_cases hjk : j = k
    · subst hjk
      simp [hph, Phase.rank]
    · simp [hjk]

theorem Phase.rank_le_two (p : Phase) : p.rank ≤ 2 := by
  cases p <;> simp [Phase.rank]

/-- A schedule of invocations below `N` keeps the invariant, and each invocation
advances by as many steps as the schedule gives it, up to its two. -/
theorem World.run_preserves (env : Env) (request : APIGatewayProxyRequest) (N : Nat)
    (i u : String) (h : Int)
    (hsess : env.newSession = none) (hget : env.getItemErr = none)
    (hupd : env.updateItemErr = none)
    (hid : request.PathParameters.lookup "id" = some i)
    (hlo : -(2 ^ 63) ≤ h) (hhi : h + N < 2 ^ 63) :
    ∀ (sched : List Nat) (w : World), (∀ k ∈ sched, k < N) → RedirectInv N i u h w →
      RedirectInv N i u h (World.run env request w sched) ∧
      ∀ j, ((World.run env request w sched).phase j).rank =
        min 2 ((w.phase j).rank + sched.count j) := by
  intro sched
  induction sched with
  | nil =>
    intro w _ hinv
    refine ⟨hinv, fun j => ?_⟩
    have := Phase.rank_le_two (w.phase j)
    simp only [World.run, List.foldl_nil, List.count_nil]
    omega
  | cons k s ih =>
    intro w hmem hinv
    obtain ⟨hinv', hrank'⟩ := World.step_preserves env request N i u h w k hsess hget hupd hid
      hlo hhi (hmem k (List.mem_cons_self k s)) hinv
    obtain ⟨hfin, hrank⟩ := ih (World.step env request w k)
      (fun k' hk' => hmem k' (List.mem_cons_of_mem k hk')) hinv'
    have hrun : World.run env request w (k :: s) =
        World.run env request (World.step env request w k) s := by
      simp [World.run]
    rw [hrun]
    refine ⟨hfin, fun j => ?_⟩
    rw [hrank j, hrank' j]
    by_cases hjk : j = k
    · subst hjk
      simp only [if_true, List.count_cons_self]
      omega
    · have hkj : k ≠ j := fun e => hjk e.symm
      simp [hjk, List.count_cons, hkj]

theorem mem_seqSchedule : ∀ (n k : Nat), k ∈ seqSchedule n → k < n := by
  intro n
  induction n with
  | zero => intro k hk; simp [seqSchedule] at hk
  | succ n ih =>
    intro k hk
    simp only [seqSchedule, List.mem_append, List.mem_cons, List.mem_singleton,
      List.not_mem_nil, or_false, or_self] at hk
    rcases hk with hk | hk
    · have := ih k hk
      omega
    · omega

theorem count_seqSchedule : ∀ (n k : Nat), k < n → (seqSchedule n).count k = 2 := by
  intro n
  induction n with
  | zero => intro k hk; omega
  | succ n ih =>
    intro k hk
    simp only [seqSchedule, List.count_append]
    by_cases hkn : k = n
    · subst hkn
      have hnot : k ∉ seqSchedule k := fun hmem => Nat.lt_irrefl _ (mem_seqSchedule k k hmem)
      simp [List.count_eq_zero_of_not_mem hnot]
    · have hne : n ≠ k := fun e => hkn e.symm
      rw [ih k (by omega)]
      simp [List.count_cons, hne]

/-- The invocations run one after another: each finds the count its predecessor
left. -/
theorem World.run_seqSchedule (env : Env) (request : APIGatewayProxyRequest)
    (i u : String) (h : Int) (t : Table)
    (hsess : env.newSession = none) (hget : env.getItemErr = none)
    (hupd : env.updateItemErr = none)
    (hid : request.PathParameters.lookup "id" = some i)
    (hrec : t i = some ⟨u, h⟩) (hlo : -(2 ^ 63) ≤ h) :
    ∀ n : Nat, h + n < 2 ^ 63 →
      (World.run env request (World.init t) (seqSchedule n)).table i = some ⟨u, h + n⟩ ∧
      ∀ k, n ≤ k → (World.run env request (World.init t) (seqSchedule n)).phase k = .start := by
  intro n
  induction n with
  | zero =>
    intro _
    simp [seqSchedule, World.run, World.init, hrec]
  | succ n ih =>
    intro hhi
    obtain ⟨htab, hph⟩ := ih (by push_cast at hhi; omega)
    have hrun : World.run env request (World.init t) (seqSchedule (n + 1)) =
        World.step env request
          (World.step env request (World.run env request (World.init t) (seqSchedule n)) n) n := by
      simp [seqSchedule, World.run, List.foldl_append]
    rw [hrun]
    generalize World.run env request (World.init t) (seqSchedule n) = w at htab hph
    have hl := Redirect.lookup_found env w.table request i u (h + n) hsess hget hid htab
      (by omega) (by push_cast at hhi; omega)
    have hstep1 : World.step env request w n =
        ⟨w.table, Function.update w.phase n (.holding ⟨i, u, h + n⟩)⟩ := by
      simp [World.step, hph n (le_refl n), hl]
    have hr := Redirect.respond_ok env w.table i u u (h + n) (h + n) hupd htab (by omega)
      (by push_cast at hhi; omega)
    rw [hstep1]
    have hstep2 : World.step env request
        ⟨w.table, Function.update w.phase n (.holding ⟨i, u, h + n⟩)⟩ n =
        ⟨w.table.set i ⟨u, h + n + 1⟩,
          Function.update (Function.update w.phase n (.holding ⟨i, u, h + n⟩)) n
            (.returned ⟨308, [("location", u)], ""⟩)⟩ := by
      simp [World.step, hr]
    rw [hstep2]
    refine ⟨?_, ?_⟩
    · simp only [Table.set_same]
      push_cast
      congr 2
      ring
    · intro k hk
      have hne : k ≠ n := by omega
      simp only [Function.update_noteq hne]
      exact hph k (by omega)

/-- C2 (counterexample): two redirects for `abcde`, stored with hit count 0, both
look the record up before either updates it (schedule `[0, 1, 0, 1]`). Both
return, and the stored hit count is 1, not `0 + 2`. -/
theorem concurrent_redirects_lose_update_counterexample :
    IsInterleaving 2 [0, 1, 0, 1] ∧
    sampleTable 0 "abcde" = some ⟨"https://example.com/page", 0⟩ ∧
    ((World.run sampleEnv sampleRedirect (World.init (sampleTable 0)) [0, 1, 0, 1]).phase 0).rank = 2 ∧
    ((World.run sampleEnv sampleRedirect (World.init (sampleTable 0)) [0, 1, 0, 1]).phase 1).rank = 2 ∧
    (World.run sampleEnv sampleRedirect (World.init (sampleTable 0)) [0, 1, 0, 1]).table "abcde" =
      some ⟨"https://example.com/page", 1⟩ ∧
    (World.run sampleEnv sampleRedirect (World.init (sampleTable 0)) [0, 1, 0, 1]).table "abcde" ≠
      some ⟨"https://example.com/page", 0 + 2⟩ := by
  refine ⟨?_, ?_, ?_, ?_, ?_, ?_⟩ <;> decide

/-- C2 (amended): for every `N ≥ 1` and every table holding under `i` a record
with hit count `h` (`-2^63 ≤ h`, `h + N < 2^63`), when the session and the store
calls succeed: after any interleaving of the lookup steps and update steps of
`N` redirect invocations for `i` the record keeps its long URL and its hit
count lies between `h + 1` and `h + N`; and after the interleaving in which
the invocations run one after another it is exactly `h + N`. -/
theorem concurrent_redirects_hitCount_bounds (env : Env) (request : APIGatewayProxyRequest)
    (t : Table) (i u : String) (h : Int) (N : Nat)
    (hsess : env.newSession = none) (hget : env.getItemErr = none)
    (hupd : env.updateItemErr = none)
    (hid : request.PathParameters.lookup "id" = some i)
    (hrec : t i = some ⟨u, h⟩) (hN : 1 ≤ N) (hlo : -(2 ^ 63) ≤ h) (hhi : h + N < 2 ^ 63) :
    (∀ sched, IsInterleaving N sched →
      ∃ c, (World.run env request (World.init t) sched).table i = some ⟨u, c⟩ ∧
        h + 1 ≤ c ∧ c ≤ h + N) ∧
    IsInterleaving N (seqSchedule N) ∧
    (World.run env request (World.init t) (seqSchedule N)).table i = some ⟨u, h + N⟩ := by
  refine ⟨?_, ⟨mem_seqSchedule N, fun k hk => count_seqSchedule N k (List.mem_range.1 hk)⟩,
    (World.run_seqSchedule env request i u h t hsess hget hupd hid hrec hlo N hhi).1⟩
  intro sched hsched
  obtain ⟨hinv, hrank⟩ := World.run_preserves env request N i u h hsess hget hupd hid hlo hhi
    sched (World.init t) hsched.1 (RedirectInv.initially N i u h t hrec)
  have hall : returnedCount (World.run env request (World.init t) sched).phase N = N := by
    apply returnedCount_all
    intro k hk
    rw [hrank k, hsched.2 k (List.mem_range.2 hk)]
    simp [World.init, Phase.rank]
  obtain ⟨c, hc, _, hc2, hc3⟩ := hinv.stored
  rw [hall] at hc2 hc3
  exact ⟨c, hc, hc3 hN, hc2⟩

/-- C2 (amended) at a sample input: two redirects whose lookups both precede the updates. -/
theorem concurrent_redirects_hitCount_bounds_witness :
    IsInterleaving 2 [0, 1, 0, 1] ∧
    sampleTable 0 "abcde" = some ⟨"https://example.com/page", 0⟩ ∧
    ∃ c, (World.run sampleEnv sampleRedirect (World.init (sampleTable 0)) [0, 1, 0, 1]).table
        "abcde" = some ⟨"https://example.com/page", c⟩ ∧ 0 + 1 ≤ c ∧ c ≤ 0 + (2 : Nat) :=
  ⟨by decide, by decide,
    (concurrent_redirects_hitCount_bounds sampleEnv sampleRedirect (sampleTable 0) "abcde"
      "https://example.com/page" 0 2 rfl rfl rfl rfl (by decide) (by decide) (by decide)
      (by decide)).1 [0, 1, 0, 1] (by decide)⟩

/-! ## The theorems at sample inputs -/

/-- C7 at a sample input: `https://example.com/page` is shortened on the empty table. -/
theorem shorten_success_creates_one_record_witness :
    sampleEnv.jsonUnmarshal "\x7b\"url\":\"https://example.com/page\"\x7d" =
      .ok ⟨"https://example.com/page"⟩ ∧
    "https://example.com/page" ≠ "" ∧
    sliceString (uuidString sampleUUID) 0 5 = some "abcde" ∧
    Table.empty "abcde" = none ∧
    ∃ out, Shorten.handleRequest sampleEnv Table.empty
        ⟨"\x7b\"url\":\"https://example.com/page\"\x7d", []⟩ = some out ∧
      out.response.StatusCode = 200 ∧ out.response.Body = BaseURL ++ "/" ++ "abcde" ∧
      out.table "abcde" = some ⟨"https://example.com/page", 0⟩ := by
  refine ⟨rfl, by decide, by decide, rfl, ?_⟩
  obtain ⟨out, h1, h2, _, h4, _, _, h7, _⟩ :=
    shorten_success_creates_one_record sampleEnv Table.empty
      ⟨"\x7b\"url\":\"https://example.com/page\"\x7d", []⟩ "https://example.com/page"
      sampleUUID "abcde" rfl (by decide) rfl rfl (by decide) rfl rfl rfl
  exact ⟨out, h1, h2, h4, h7⟩

/-- C8 at a sample input: the candidate `abcde` is already stored with hit count 3. -/
theorem shorten_existing_id_is_collision_witness :
    sliceString (uuidString sampleUUID) 0 5 = some "abcde" ∧
    sampleTable 3 "abcde" = some ⟨"https://example.com/page", 3⟩ ∧
    ∃ out, Shorten.handleRequest sampleEnv (sampleTable 3)
        ⟨"\x7b\"url\":\"https://example.org/other\"\x7d", []⟩ = some out ∧
      out.response.StatusCode = 500 ∧ out.calls = [.GetItem "abcde"] ∧
      out.table "abcde" = some ⟨"https://example.com/page", 3⟩ := by
  refine ⟨by decide, by decide, ?_⟩
  obtain ⟨out, h1, h2, _, h4, _, h6⟩ :=
    shorten_existing_id_is_collision sampleEnv (sampleTable 3)
      ⟨"\x7b\"url\":\"https://example.org/other\"\x7d", []⟩ ⟨"https://example.org/other"⟩
      sampleUUID "abcde" ⟨"https://example.com/page", 3⟩ rfl rfl rfl (by decide) rfl (by decide)
  exact ⟨out, h1, h2, h4, h6⟩

/-- C6 at a sample input: `zzzzz` was never created. -/
theorem redirect_unknown_id_not_found_witness :
    sampleTable 0 "zzzzz" = none ∧
    (Redirect.handleRequest sampleEnv (sampleTable 0) ⟨"", [("id", "zzzzz")]⟩).response =
      ⟨404, [], "This short url does not correspond to a longer URL."⟩ ∧
    (Redirect.handleRequest sampleEnv (sampleTable 0) ⟨"", [("id", "zzzzz")]⟩).table "zzzzz" =
      none :=
  have w := redirect_unknown_id_not_found sampleEnv (sampleTable 0) ⟨"", [("id", "zzzzz")]⟩
    "zzzzz" rfl (by decide)
  ⟨by decide, (w.2.2.2 rfl rfl).1, w.2.1⟩

/-- C1 at a sample input: shorten `https://example.com/page`, then redirect `abcde`. -/
theorem shorten_then_redirect_round_trip_witness :
    sliceString (uuidString sampleUUID) 0 5 = some "abcde" ∧
    Table.empty "abcde" = none ∧
    ∃ out, Shorten.handleRequest sampleEnv Table.empty
        ⟨"\x7b\"url\":\"https://example.com/page\"\x7d", []⟩ = some out ∧
      out.response = ⟨200, [], BaseURL ++ "/" ++ "abcde"⟩ ∧
      (Redirect.handleRequest sampleEnv out.table sampleRedirect).response.Headers.lookup
        "location" = some "https://example.com/page" := by
  refine ⟨by decide, rfl, ?_⟩
  obtain ⟨out, h1, h2, _, h4⟩ :=
    shorten_then_redirect_round_trip sampleEnv sampleEnv Table.empty
      ⟨"\x7b\"url\":\"https://example.com/page\"\x7d", []⟩ sampleRedirect
      "https://example.com/page" sampleUUID "abcde" rfl rfl rfl (by decide) rfl rfl rfl
      rfl rfl rfl rfl
  exact ⟨out, h1, h2, h4⟩

end UrlShortener
